import Mathlib

/-!
Shallow embedding of `pykerr/qnm.py`.

Modelling choices:
* Python floats are idealized as exact rationals (`ℚ`); `numpy.pi` is embedded
  as the exact value of the IEEE-754 double `numpy.pi`.
* The bundled HDF data files and scipy's `InterpolatedUnivariateSpline` are
  external to the source file; they are abstracted into a `DataEnv`:
  which `data/l{L}.hdf` resources exist, which `lmn` groups they contain
  (a group is taken to contain its `spin` and `omega` datasets, as the shipped
  data files do), and the evaluation function of the univariate spline built
  from a group's data.  The spline built by `_create_spline` depends only on
  the file (`l`), the group key (formed from `l`, `abs m`, `n`), the dataset
  name, and the requested component, which is exactly how `DataEnv.splineVal`
  is indexed.
* Python exceptions become an `Except KerrError` result.  The module-level
  cache dictionaries `_reomega_splines` / `_imomega_splines` become explicit
  state (`QNMState`) threaded through each function; a raised exception leaves
  whatever mutations already happened in place, which the embedding reproduces
  by returning the partially-updated state alongside the error.
-/

/-- MAX_SPIN = 0.9997, from qnm.py line 9. -/
def MAX_SPIN : ℚ := 9997 / 10000

/-- MTSUN = 4.925491025543576e-06 (solar masses in seconds), qnm.py line 12. -/
def MTSUN : ℚ := 4925491025543576 / 10 ^ 21

/-- The exact value of the IEEE-754 double `numpy.pi`. -/
def numpy_pi : ℚ := 884279719003555 / 281474976710656

/-- Errors raised by qnm.py, by raise site:
* `invalidMode l m n`: `ValueError("unsupported lmn {l}{m}{n}")` raised in
  `_create_spline` when `pkg_resources.resource_stream` fails with `OSError`
  (no `data/l{L}.hdf` resource); it carries the signed triple.
* `keyError key`: the `KeyError` h5py raises from `fp[lmn]` when the group
  `lmn` is absent from the file; it carries only the group key string.
* `valueErrorReim`: `ValueError("reim must be eiter 're' or 'im'")`.
* `outOfRangeSpin bound`: `ValueError("|spin| must be < {MAX_SPIN}")` raised
  by `_checkspin`; it carries the bound that appears in the message. -/
inductive KerrError where
  | invalidMode (l m n : ℤ)
  | keyError (key : String)
  | valueErrorReim
  | outOfRangeSpin (bound : ℚ)
  deriving DecidableEq, Repr

/-- A spline cache (`_reomega_splines` / `_imomega_splines`): a dictionary
from keys `(l, abs m, n)` to spline evaluation functions. -/
def SplineCache : Type := ℤ × ℕ × ℤ → Option (ℚ → ℚ)

/-- The abstracted external world: the bundled data files and scipy.
`hasFile l` — the resource `data/l{L}.hdf` exists;
`hasGroup l key` — that file contains group `key` (with its `spin` and
named datasets); `splineVal name reim l mabs n` — the evaluation function of
`InterpolatedUnivariateSpline(x, y)` built from the `spin` dataset and the
`reim` component of the `name` dataset of group `(l, mabs, n)`. -/
structure DataEnv where
  hasFile : ℤ → Bool
  hasGroup : ℤ → String → Bool
  splineVal : String → String → ℤ → ℕ → ℤ → ℚ → ℚ

/-- The group key `'{}{}{}'.format(l, abs(m), n)` from qnm.py line 23. -/
def lmnKey (l m n : ℤ) : String :=
  toString l ++ toString m.natAbs ++ toString n

/-- qnm.py lines 20-39, `_create_spline(name, reim, l, m, n)`:
resolve `data/l{l}.hdf` (OSError becomes `ValueError("unsupported lmn ...")`),
read `fp[lmn]['spin']` and `fp[lmn][name]` (a missing group raises `KeyError`),
project the requested component (an unknown `reim` raises `ValueError`), and
build the spline. -/
def _create_spline (env : DataEnv) (name reim : String) (l m n : ℤ) :
    Except KerrError (ℚ → ℚ) :=
  if env.hasFile l = false then
    .error (.invalidMode l m n)
  else if env.hasGroup l (lmnKey l m n) = false then
    .error (.keyError (lmnKey l m n))
  else if reim = "re" then
    .ok (env.splineVal name "re" l m.natAbs n)
  else if reim = "im" then
    .ok (env.splineVal name "im" l m.natAbs n)
  else
    .error .valueErrorReim

/-- qnm.py lines 42-49, `_getspline(name, reim, l, m, n, cache)`:
look up `cache[l, abs(m), n]`; on `KeyError` build the spline via
`_create_spline` and store it.  Returns the spline together with the
(possibly updated) cache. -/
def _getspline (env : DataEnv) (name reim : String) (l m n : ℤ)
    (cache : SplineCache) : Except KerrError ((ℚ → ℚ) × SplineCache) :=
  match cache (l, m.natAbs, n) with
  | some spline => .ok (spline, cache)
  | none =>
    match _create_spline env name reim l m n with
    | .error e => .error e
    | .ok spline =>
      .ok (spline, fun k => if k = (l, m.natAbs, n) then some spline else cache k)

/-- qnm.py lines 52-56, `_checkspin(spin)`:
raise `ValueError("|spin| must be < {MAX_SPIN}")` when `abs(spin) > MAX_SPIN`. -/
def _checkspin (spin : ℚ) : Except KerrError Unit :=
  if |spin| > MAX_SPIN then .error (.outOfRangeSpin MAX_SPIN) else .ok ()

/-- The module-level cache `_reomega_splines = {}` (qnm.py line 16). -/
def _reomega_splines : SplineCache := fun _ => none

/-- The module-level cache `_imomega_splines = {}` (qnm.py line 17). -/
def _imomega_splines : SplineCache := fun _ => none

/-- The pair of module-level caches, threaded explicitly. -/
structure QNMState where
  reomega_splines : SplineCache
  imomega_splines : SplineCache

/-- The caches at process start. -/
def initState : QNMState := ⟨_reomega_splines, _imomega_splines⟩

/-- qnm.py lines 59-86, `kerr_omega(spin, l, m, n)`:
check the spin, fetch the real- and imaginary-part splines, use `abs(spin)`
when `m == 0`, and return `sign*respline(spin) + 1j*imspline(spin)` where
`sign = (-1)**int(m < 0)`.  The complex result is the pair (re, im); note the
source multiplies only the real part by `sign`. -/
def kerr_omega (env : DataEnv) (st : QNMState) (spin : ℚ) (l m n : ℤ) :
    Except KerrError (ℚ × ℚ) × QNMState :=
  match _checkspin spin with
  | .error e => (.error e, st)
  | .ok _ =>
    match _getspline env "omega" "re" l m n st.reomega_splines with
    | .error e => (.error e, st)
    | .ok (respline, recache) =>
      match _getspline env "omega" "im" l m n st.imomega_splines with
      | .error e => (.error e, { st with reomega_splines := recache })
      | .ok (imspline, imcache) =>
        let spin2 := if m = 0 then |spin| else spin
        let sign : ℚ := if m < 0 then -1 else 1
        (.ok (sign * respline spin2, imspline spin2),
         { reomega_splines := recache, imomega_splines := imcache })

/-- qnm.py lines 89-117, `kerr_freq(mass, spin, l, m, n)`:
check the spin, fetch only the real-part spline, use `abs(spin)` when
`m == 0`, and return `sign * spline(spin) / (2*numpy.pi*mass*MTSUN)`. -/
def kerr_freq (env : DataEnv) (st : QNMState) (mass spin : ℚ) (l m n : ℤ) :
    Except KerrError ℚ × QNMState :=
  match _checkspin spin with
  | .error e => (.error e, st)
  | .ok _ =>
    match _getspline env "omega" "re" l m n st.reomega_splines with
    | .error e => (.error e, st)
    | .ok (spline, recache) =>
      let spin2 := if m = 0 then |spin| else spin
      let sign : ℚ := if m < 0 then -1 else 1
      (.ok (sign * spline spin2 / (2 * numpy_pi * mass * MTSUN)),
       { st with reomega_splines := recache })

/-- qnm.py lines 120-149, `kerr_tau(mass, spin, l, m, n)`:
check the spin, fetch only the imaginary-part spline, use `abs(spin)` when
`m == 0`, and return `-mass*MTSUN / spline(spin)` (no sign factor). -/
def kerr_tau (env : DataEnv) (st : QNMState) (mass spin : ℚ) (l m n : ℤ) :
    Except KerrError ℚ × QNMState :=
  match _checkspin spin with
  | .error e => (.error e, st)
  | .ok _ =>
    match _getspline env "omega" "im" l m n st.imomega_splines with
    | .error e => (.error e, st)
    | .ok (spline, imcache) =>
      let spin2 := if m = 0 then |spin| else spin
      (.ok (-mass * MTSUN / spline spin2),
       { st with imomega_splines := imcache })

/-- The error component of a result, if any. -/
def errOf {α : Type} (r : Except KerrError α) : Option KerrError :=
  match r with
  | .error e => some e
  | .ok _ => none

/-- A concrete environment for witnesses: files `l2.hdf` … `l7.hdf` exist,
file `l2.hdf` contains groups `220` and `200`, the real-part splines are
constantly 3 and the imaginary-part splines constantly 5. -/
def env1 : DataEnv where
  hasFile := fun l => decide (2 ≤ l ∧ l ≤ 7)
  hasGroup := fun l key => l == 2 && (key == "220" || key == "200")
  splineVal := fun _ reim _ _ _ _ => if reim = "im" then 5 else 3

/-- An environment with no data at all, used to show that a cached spline is
served without consulting the data layer. -/
def envEmpty : DataEnv where
  hasFile := fun _ => false
  hasGroup := fun _ _ => false
  splineVal := fun _ _ _ _ _ _ => 0

/-! ### Helper lemmas -/

lemma lmnKey_neg (l m n : ℤ) : lmnKey l (-m) n = lmnKey l m n := by
  unfold lmnKey
  rw [Int.natAbs_neg]

lemma create_spline_neg_ok {env : DataEnv} {name reim : String} {l m n : ℤ}
    {s : ℚ → ℚ} (h : _create_spline env name reim l m n = .ok s) :
    _create_spline env name reim l (-m) n = .ok s := by
  unfold _create_spline at h ⊢
  simp only [lmnKey_neg, Int.natAbs_neg]
  by_cases hf : env.hasFile l = false
  · rw [if_pos hf] at h
    exact absurd h (by simp)
  · rw [if_neg hf] at h ⊢
    by_cases hg : env.hasGroup l (lmnKey l m n) = false
    · rw [if_pos hg] at h
      exact absurd h (by simp)
    · rw [if_neg hg] at h ⊢
      exact h


lemma getspline_neg_ok {env : DataEnv} {name reim : String} {l m n : ℤ}
    {cache : SplineCache} {p : (ℚ → ℚ) × SplineCache}
    (h : _getspline env name reim l m n cache = .ok p) :
    _getspline env name reim l (-m) n cache = .ok p := by
  unfold _getspline at h ⊢
  simp only [Int.natAbs_neg]
  cases hc : cache (l, m.natAbs, n) with
  | some s =>
    rw [hc] at h
    exact h
  | none =>
    rw [hc] at h
    cases hcr : _create_spline env name reim l m n with
    | error e =>
      rw [hcr] at h
      exact absurd h (fun hcon => Except.noConfusion hcon)
    | ok s =>
      rw [hcr] at h
      rw [create_spline_neg_ok hcr]
      exact h

lemma getspline_ok_cache {env : DataEnv} {name reim : String} {l m n : ℤ}
    {cache : SplineCache} {s : ℚ → ℚ} {c' : SplineCache}
    (h : _getspline env name reim l m n cache = .ok (s, c')) :
    c' (l, m.natAbs, n) = some s ∧
    (∀ k v, cache k = some v → c' k = some v) ∧
    (∀ env' : DataEnv, _getspline env' name reim l m n c' = .ok (s, c')) := by
  unfold _getspline at h
  cases hc : cache (l, m.natAbs, n) with
  | some s0 =>
    rw [hc] at h
    have h2 : ((s0, cache) : (ℚ → ℚ) × SplineCache) = (s, c') := Except.ok.inj h
    injection h2 with hs hc2
    subst hs
    subst hc2
    refine ⟨hc, fun k v hk => hk, fun env' => ?_⟩
    unfold _getspline
    rw [hc]
  | none =>
    rw [hc] at h
    cases hcr : _create_spline env name reim l m n with
    | error e =>
      rw [hcr] at h
      exact absurd h (fun hcon => Except.noConfusion hcon)
    | ok s1 =>
      rw [hcr] at h
      have h2 : ((s1, fun k => if k = (l, m.natAbs, n) then some s1 else cache k) :
          (ℚ → ℚ) × SplineCache) = (s, c') := Except.ok.inj h
      injection h2 with hs hc2
      subst hs
      subst hc2
      refine ⟨by simp, fun k v hk => ?_, fun env' => ?_⟩
      · have hk2 : k ≠ (l, m.natAbs, n) := by
          intro he
          rw [he, hc] at hk
          exact Option.noConfusion hk
        simp only [if_neg hk2]
        exact hk
      · unfold _getspline
        simp

lemma create_spline_no_spin_error {env : DataEnv} {name reim : String}
    {l m n : ℤ} {b : ℚ} :
    _create_spline env name reim l m n ≠ .error (.outOfRangeSpin b) := by
  unfold _create_spline
  by_cases hf : env.hasFile l = false
  · simp [hf]
  · by_cases hg : env.hasGroup l (lmnKey l m n) = false
    · simp [hf, hg]
    · by_cases hre : reim = "re"
      · simp [hf, hg, hre]
      · by_cases him : reim = "im"
        · simp [hf, hg, hre, him]
        · simp [hf, hg, hre, him]

lemma getspline_no_spin_error {env : DataEnv} {name reim : String}
    {l m n : ℤ} {cache : SplineCache} {b : ℚ} :
    _getspline env name reim l m n cache ≠ .error (.outOfRangeSpin b) := by
  unfold _getspline
  cases hc : cache (l, m.natAbs, n) with
  | some s => exact fun hcon => Except.noConfusion hcon
  | none =>
    cases hcr : _create_spline env name reim l m n with
    | error e =>
      intro hcon
      have he : e = .outOfRangeSpin b := Except.error.inj hcon
      rw [he] at hcr
      exact create_spline_no_spin_error hcr
    | ok s => exact fun hcon => Except.noConfusion hcon

lemma getspline_total (env : DataEnv) (name reim : String) (l m n : ℤ)
    (cache : SplineCache)
    (hf : env.hasFile l = true) (hg : env.hasGroup l (lmnKey l m n) = true)
    (hr : reim = "re" ∨ reim = "im") :
    ∃ s c', _getspline env name reim l m n cache = .ok (s, c') := by
  unfold _getspline
  cases hc : cache (l, m.natAbs, n) with
  | some s => exact ⟨s, cache, rfl⟩
  | none =>
    have hcr : ∃ s, _create_spline env name reim l m n = .ok s := by
      rcases hr with rfl | rfl
      · exact ⟨env.splineVal name "re" l m.natAbs n, by simp [_create_spline, hf, hg]⟩
      · exact ⟨env.splineVal name "im" l m.natAbs n, by simp [_create_spline, hf, hg]⟩
    obtain ⟨s, hs⟩ := hcr
    rw [hs]
    exact ⟨s, _, rfl⟩

lemma kerr_omega_eval {env : DataEnv} {st : QNMState} {spin : ℚ} {l m n : ℤ}
    {r i : ℚ → ℚ} {rc ic : SplineCache}
    (hspin : ¬ |spin| > MAX_SPIN)
    (hre : _getspline env "omega" "re" l m n st.reomega_splines = .ok (r, rc))
    (him : _getspline env "omega" "im" l m n st.imomega_splines = .ok (i, ic)) :
    kerr_omega env st spin l m n =
      (.ok ((if m < 0 then (-1 : ℚ) else 1) * r (if m = 0 then |spin| else spin),
            i (if m = 0 then |spin| else spin)),
       ⟨rc, ic⟩) := by
  unfold kerr_omega _checkspin
  rw [if_neg hspin, hre, him]

lemma kerr_freq_eval {env : DataEnv} {st : QNMState} (mass : ℚ) {spin : ℚ} {l m n : ℤ}
    {r : ℚ → ℚ} {rc : SplineCache}
    (hspin : ¬ |spin| > MAX_SPIN)
    (hre : _getspline env "omega" "re" l m n st.reomega_splines = .ok (r, rc)) :
    kerr_freq env st mass spin l m n =
      (.ok ((if m < 0 then (-1 : ℚ) else 1) * r (if m = 0 then |spin| else spin)
              / (2 * numpy_pi * mass * MTSUN)),
       { st with reomega_splines := rc }) := by
  unfold kerr_freq _checkspin
  rw [if_neg hspin, hre]

lemma kerr_tau_eval {env : DataEnv} {st : QNMState} (mass : ℚ) {spin : ℚ} {l m n : ℤ}
    {i : ℚ → ℚ} {ic : SplineCache}
    (hspin : ¬ |spin| > MAX_SPIN)
    (him : _getspline env "omega" "im" l m n st.imomega_splines = .ok (i, ic)) :
    kerr_tau env st mass spin l m n =
      (.ok (-mass * MTSUN / i (if m = 0 then |spin| else spin)),
       { st with imomega_splines := ic }) := by
  unfold kerr_tau _checkspin
  rw [if_neg hspin, him]

lemma getspline_cold (env : DataEnv) (name reim : String) (l m n : ℤ)
    (cache : SplineCache) (hc : cache (l, m.natAbs, n) = none)
    (hf : env.hasFile l = true) (hg : env.hasGroup l (lmnKey l m n) = true)
    (hr : reim = "re" ∨ reim = "im") :
    _getspline env name reim l m n cache =
      .ok (env.splineVal name reim l m.natAbs n,
           fun k => if k = (l, m.natAbs, n)
                    then some (env.splineVal name reim l m.natAbs n)
                    else cache k) := by
  unfold _getspline
  rw [hc]
  have hcr : _create_spline env name reim l m n =
      .ok (env.splineVal name reim l m.natAbs n) := by
    unfold _create_spline
    rw [hf, hg]
    rcases hr with rfl | rfl <;> simp
  rw [hcr]

lemma omega_spin_error_iff {env : DataEnv} {st : QNMState} {spin : ℚ}
    {l m n : ℤ} {b : ℚ} :
    (kerr_omega env st spin l m n).1 = .error (.outOfRangeSpin b) ↔
      |spin| > MAX_SPIN ∧ b = MAX_SPIN := by
  constructor
  · intro hX
    by_cases hs : |spin| > MAX_SPIN
    · refine ⟨hs, ?_⟩
      unfold kerr_omega _checkspin at hX
      rw [if_pos hs] at hX
      exact (KerrError.outOfRangeSpin.inj (Except.error.inj hX)).symm
    · exfalso
      unfold kerr_omega _checkspin at hX
      rw [if_neg hs] at hX
      cases hre : _getspline env "omega" "re" l m n st.reomega_splines with
      | error e =>
        rw [hre] at hX
        have he : e = .outOfRangeSpin b := Except.error.inj hX
        rw [he] at hre
        exact getspline_no_spin_error hre
      | ok p =>
        obtain ⟨r, rc⟩ := p
        rw [hre] at hX
        cases him : _getspline env "omega" "im" l m n st.imomega_splines with
        | error e =>
          rw [him] at hX
          have he : e = .outOfRangeSpin b := Except.error.inj hX
          rw [he] at him
          exact getspline_no_spin_error him
        | ok q =>
          obtain ⟨i, ic⟩ := q
          rw [him] at hX
          exact Except.noConfusion hX
  · rintro ⟨hs, rfl⟩
    unfold kerr_omega _checkspin
    rw [if_pos hs]

lemma freq_spin_error_iff {env : DataEnv} {st : QNMState} {mass spin : ℚ}
    {l m n : ℤ} {b : ℚ} :
    (kerr_freq env st mass spin l m n).1 = .error (.outOfRangeSpin b) ↔
      |spin| > MAX_SPIN ∧ b = MAX_SPIN := by
  constructor
  · intro hX
    by_cases hs : |spin| > MAX_SPIN
    · refine ⟨hs, ?_⟩
      unfold kerr_freq _checkspin at hX
      rw [if_pos hs] at hX
      exact (KerrError.outOfRangeSpin.inj (Except.error.inj hX)).symm
    · exfalso
      unfold kerr_freq _checkspin at hX
      rw [if_neg hs] at hX
      cases hre : _getspline env "omega" "re" l m n st.reomega_splines with
      | error e =>
        rw [hre] at hX
        have he : e = .outOfRangeSpin b := Except.error.inj hX
        rw [he] at hre
        exact getspline_no_spin_error hre
      | ok p =>
        obtain ⟨r, rc⟩ := p
        rw [hre] at hX
        exact Except.noConfusion hX
  · rintro ⟨hs, rfl⟩
    unfold kerr_freq _checkspin
    rw [if_pos hs]

lemma tau_spin_error_iff {env : DataEnv} {st : QNMState} {mass spin : ℚ}
    {l m n : ℤ} {b : ℚ} :
    (kerr_tau env st mass spin l m n).1 = .error (.outOfRangeSpin b) ↔
      |spin| > MAX_SPIN ∧ b = MAX_SPIN := by
  constructor
  · intro hX
    by_cases hs : |spin| > MAX_SPIN
    · refine ⟨hs, ?_⟩
      unfold kerr_tau _checkspin at hX
      rw [if_pos hs] at hX
      exact (KerrError.outOfRangeSpin.inj (Except.error.inj hX)).symm
    · exfalso
      unfold kerr_tau _checkspin at hX
      rw [if_neg hs] at hX
      cases him : _getspline env "omega" "im" l m n st.imomega_splines with
      | error e =>
        rw [him] at hX
        have he : e = .outOfRangeSpin b := Except.error.inj hX
        rw [he] at him
        exact getspline_no_spin_error him
      | ok q =>
        obtain ⟨i, ic⟩ := q
        rw [him] at hX
        exact Except.noConfusion hX
  · rintro ⟨hs, rfl⟩
    unfold kerr_tau _checkspin
    rw [if_pos hs]

/-! ### Claim theorems -/

/-- C6: for every l, n and every spin, `kerr_omega spin l 0 n` equals
`kerr_omega (-spin) l 0 n` — when m = 0 the evaluation uses the absolute
value of the spin (this holds for all spins, in-range or not, including
the caches and the error path). -/
theorem kerr_omega_m0_spin_symmetry (env : DataEnv) (st : QNMState)
    (spin : ℚ) (l n : ℤ) :
    kerr_omega env st spin l 0 n = kerr_omega env st (-spin) l 0 n := by
  unfold kerr_omega _checkspin
  simp [abs_neg]

/-- C9: if the spin is out of range, `kerr_omega`, `kerr_freq` and `kerr_tau`
fail with `OutOfRangeSpin` and leave the spline caches exactly as they were:
the spin check runs before any cache lookup or spline construction. -/
theorem spin_error_state_unchanged (env : DataEnv) (st : QNMState)
    (mass spin : ℚ) (l m n : ℤ) (h : |spin| > MAX_SPIN) :
    kerr_omega env st spin l m n = (.error (.outOfRangeSpin MAX_SPIN), st) ∧
    kerr_freq env st mass spin l m n = (.error (.outOfRangeSpin MAX_SPIN), st) ∧
    kerr_tau env st mass spin l m n = (.error (.outOfRangeSpin MAX_SPIN), st) := by
  have ho : kerr_omega env st spin l m n = (.error (.outOfRangeSpin MAX_SPIN), st) := by
    unfold kerr_omega _checkspin
    rw [if_pos h]
  have hf : kerr_freq env st mass spin l m n = (.error (.outOfRangeSpin MAX_SPIN), st) := by
    unfold kerr_freq _checkspin
    rw [if_pos h]
  have ht : kerr_tau env st mass spin l m n = (.error (.outOfRangeSpin MAX_SPIN), st) := by
    unfold kerr_tau _checkspin
    rw [if_pos h]
  exact ⟨ho, hf, ht⟩

/-- C9 witness: at spin 2 all three functions error out and return the
initial caches untouched. -/
theorem spin_error_state_unchanged_witness :
    kerr_omega env1 initState 2 2 2 0 = (.error (.outOfRangeSpin MAX_SPIN), initState) ∧
    kerr_freq env1 initState 1 2 2 2 0 = (.error (.outOfRangeSpin MAX_SPIN), initState) ∧
    kerr_tau env1 initState 1 2 2 2 0 = (.error (.outOfRangeSpin MAX_SPIN), initState) :=
  spin_error_state_unchanged env1 initState 1 2 2 2 0
    (by rw [abs_of_nonneg (by norm_num : (0:ℚ) ≤ 2)]; norm_num [MAX_SPIN])

/-- C3: `kerr_omega`, `kerr_freq` and `kerr_tau` fail with `OutOfRangeSpin`
exactly when the absolute spin exceeds MAX_SPIN = 0.9997, and the error
carries that bound. -/
theorem spin_bound_check (env : DataEnv) (st : QNMState) (mass spin : ℚ)
    (l m n : ℤ) :
    MAX_SPIN = 9997 / 10000 ∧
    (∀ b, (kerr_omega env st spin l m n).1 = .error (.outOfRangeSpin b) ↔
        |spin| > MAX_SPIN ∧ b = MAX_SPIN) ∧
    (∀ b, (kerr_freq env st mass spin l m n).1 = .error (.outOfRangeSpin b) ↔
        |spin| > MAX_SPIN ∧ b = MAX_SPIN) ∧
    (∀ b, (kerr_tau env st mass spin l m n).1 = .error (.outOfRangeSpin b) ↔
        |spin| > MAX_SPIN ∧ b = MAX_SPIN) :=
  ⟨rfl, fun _ => omega_spin_error_iff, fun _ => freq_spin_error_iff,
   fun _ => tau_spin_error_iff⟩

/-- C3 witness: spin 0.9998 is rejected with `OutOfRangeSpin` while the
boundary spin 0.9997 is not. -/
theorem spin_bound_check_witness :
    (kerr_omega env1 initState (9998/10000) 2 2 0).1 =
      .error (.outOfRangeSpin MAX_SPIN) ∧
    ¬ (kerr_omega env1 initState (9997/10000) 2 2 0).1 =
      .error (.outOfRangeSpin MAX_SPIN) := by
  constructor
  · exact ((spin_bound_check env1 initState 1 (9998/10000) 2 2 0).2.1 MAX_SPIN).mpr
      ⟨by rw [abs_of_nonneg (by norm_num : (0:ℚ) ≤ 9998/10000)]; norm_num [MAX_SPIN], rfl⟩
  · intro hcon
    have h2 :=
      (((spin_bound_check env1 initState 1 (9997/10000) 2 2 0).2.1 MAX_SPIN).mp hcon).1
    rw [abs_of_nonneg (by norm_num : (0:ℚ) ≤ 9997/10000)] at h2
    norm_num [MAX_SPIN] at h2

/-- C10: `kerr_freq` and `kerr_tau` never validate the mass: whether they
fail, and with which error, is independent of the mass, and with an in-range
spin and available data they succeed for every mass, zero and negative
masses included. -/
theorem mass_unvalidated (env : DataEnv) (st : QNMState) (spin : ℚ)
    (l m n : ℤ) (mass₁ mass₂ : ℚ) :
    errOf (kerr_freq env st mass₁ spin l m n).1 =
      errOf (kerr_freq env st mass₂ spin l m n).1 ∧
    errOf (kerr_tau env st mass₁ spin l m n).1 =
      errOf (kerr_tau env st mass₂ spin l m n).1 ∧
    (|spin| ≤ MAX_SPIN → env.hasFile l = true →
     env.hasGroup l (lmnKey l m n) = true →
      (∃ f st', kerr_freq env st mass₁ spin l m n = (.ok f, st')) ∧
      (∃ t st', kerr_tau env st mass₁ spin l m n = (.ok t, st'))) := by
  refine ⟨?_, ?_, ?_⟩
  · by_cases hs : |spin| > MAX_SPIN
    · unfold kerr_freq _checkspin
      simp only [if_pos hs]
    · unfold kerr_freq _checkspin
      simp only [if_neg hs]
      cases hre : _getspline env "omega" "re" l m n st.reomega_splines with
      | error e => rfl
      | ok p =>
        obtain ⟨r, rc⟩ := p
        rfl
  · by_cases hs : |spin| > MAX_SPIN
    · unfold kerr_tau _checkspin
      simp only [if_pos hs]
    · unfold kerr_tau _checkspin
      simp only [if_neg hs]
      cases him : _getspline env "omega" "im" l m n st.imomega_splines with
      | error e => rfl
      | ok q =>
        obtain ⟨i, ic⟩ := q
        rfl
  · intro hle hf hg
    have hs : ¬ |spin| > MAX_SPIN := not_lt.mpr hle
    obtain ⟨r, rc, hre⟩ :=
      getspline_total env "omega" "re" l m n st.reomega_splines hf hg (Or.inl rfl)
    obtain ⟨i, ic, him⟩ :=
      getspline_total env "omega" "im" l m n st.imomega_splines hf hg (Or.inr rfl)
    exact ⟨⟨_, _, kerr_freq_eval mass₁ hs hre⟩, ⟨_, _, kerr_tau_eval mass₁ hs him⟩⟩

/-- C10 witness: with spin 0 and mode (2,2,0) in `env1` both functions
succeed at the unphysical mass -1, and their error component matches the one
at mass 0. -/
theorem mass_unvalidated_witness :
    errOf (kerr_freq env1 initState (-1) 0 2 2 0).1 =
      errOf (kerr_freq env1 initState 0 0 2 2 0).1 ∧
    errOf (kerr_tau env1 initState (-1) 0 2 2 0).1 =
      errOf (kerr_tau env1 initState 0 0 2 2 0).1 ∧
    (∃ f st', kerr_freq env1 initState (-1) 0 2 2 0 = (.ok f, st')) ∧
    (∃ t st', kerr_tau env1 initState (-1) 0 2 2 0 = (.ok t, st')) := by
  have h := mass_unvalidated env1 initState 0 2 2 0 (-1) 0
  exact ⟨h.1, h.2.1, h.2.2 (by norm_num [MAX_SPIN]) (by decide) (by decide)⟩

/-- C1 counterexample: with constant splines (re = 3, im = 5), at spin 0 and
mode (2, ±2, 0) the imaginary parts of `kerr_omega` for m = -2 and m = 2 are
both 5, not negatives of each other: the source multiplies only the real
part by the sign. -/
theorem kerr_omega_negate_both_counterexample :
    (kerr_omega env1 initState 0 2 (-2) 0).1.toOption.map Prod.snd = some 5 ∧
    (kerr_omega env1 initState 0 2 2 0).1.toOption.map Prod.snd = some 5 ∧
    (5 : ℚ) ≠ -5 := by
  have h0 : ¬ |(0 : ℚ)| > MAX_SPIN := by norm_num [MAX_SPIN]
  have hre := getspline_cold env1 "omega" "re" 2 2 0 initState.reomega_splines
    rfl (by decide) (by decide) (Or.inl rfl)
  have him := getspline_cold env1 "omega" "im" 2 2 0 initState.imomega_splines
    rfl (by decide) (by decide) (Or.inr rfl)
  have hre2 := getspline_neg_ok hre
  have him2 := getspline_neg_ok him
  have he1 := kerr_omega_eval h0 hre him
  have he2 := kerr_omega_eval h0 hre2 him2
  refine ⟨?_, ?_, by norm_num⟩
  · rw [he2]
    simp only [env1, Except.toOption, Option.map]
    norm_num
  · rw [he1]
    simp only [env1, Except.toOption, Option.map]
    norm_num

/-- C1 (amended): for m different from 0, if `kerr_omega` succeeds at
(l, m, n) then it succeeds at (l, -m, n) with the SAME updated caches, the
real part negated and the imaginary part unchanged (the claim's negation of
both parts fails; only the real part is multiplied by the sign). -/
theorem kerr_omega_neg_m_negates_re_only (env : DataEnv) (st : QNMState)
    (spin : ℚ) (l n : ℤ) {m : ℤ} {z : ℚ × ℚ} {st' : QNMState}
    (hm : m ≠ 0) (hok : kerr_omega env st spin l m n = (.ok z, st')) :
    kerr_omega env st spin l (-m) n = (.ok (-z.1, z.2), st') := by
  unfold kerr_omega _checkspin at hok
  by_cases hs : |spin| > MAX_SPIN
  · rw [if_pos hs] at hok
    exact absurd (congrArg Prod.fst hok) (fun hcon => Except.noConfusion hcon)
  · rw [if_neg hs] at hok
    cases hre : _getspline env "omega" "re" l m n st.reomega_splines with
    | error e =>
      rw [hre] at hok
      exact absurd (congrArg Prod.fst hok) (fun hcon => Except.noConfusion hcon)
    | ok p =>
      obtain ⟨r, rc⟩ := p
      rw [hre] at hok
      cases him : _getspline env "omega" "im" l m n st.imomega_splines with
      | error e =>
        rw [him] at hok
        exact absurd (congrArg Prod.fst hok) (fun hcon => Except.noConfusion hcon)
      | ok q =>
        obtain ⟨i, ic⟩ := q
        rw [him] at hok
        have hz : ((if m < 0 then (-1 : ℚ) else 1) * r (if m = 0 then |spin| else spin),
                   i (if m = 0 then |spin| else spin)) = z :=
          Except.ok.inj (congrArg Prod.fst hok)
        have hst : ({ reomega_splines := rc, imomega_splines := ic } : QNMState) = st' :=
          congrArg Prod.snd hok
        have heval := kerr_omega_eval hs (getspline_neg_ok hre) (getspline_neg_ok him)
        rw [heval, ← hz, ← hst]
        have hm2 : ¬ (-m = 0) := fun hc => hm (neg_eq_zero.mp hc)
        rw [if_neg hm2, if_neg hm]
        rcases lt_trichotomy m 0 with hlt | heq | hgt
        · rw [if_neg (by omega : ¬ (-m < 0)), if_pos hlt]
          norm_num
        · exact absurd heq hm
        · rw [if_pos (by omega : -m < 0), if_neg (by omega : ¬ (m < 0))]
          norm_num

/-- C1 witness: a successful call at (2, 2, 0) yields, at (2, -2, 0), the
same caches, negated real part and unchanged imaginary part. -/
theorem kerr_omega_neg_m_negates_re_only_witness :
    ∃ z st', kerr_omega env1 initState 0 2 2 0 = (.ok z, st') ∧
      kerr_omega env1 initState 0 2 (-2) 0 = (.ok (-z.1, z.2), st') := by
  have h0 : ¬ |(0 : ℚ)| > MAX_SPIN := by norm_num [MAX_SPIN]
  have hre := getspline_cold env1 "omega" "re" 2 2 0 initState.reomega_splines
    rfl (by decide) (by decide) (Or.inl rfl)
  have him := getspline_cold env1 "omega" "im" 2 2 0 initState.imomega_splines
    rfl (by decide) (by decide) (Or.inr rfl)
  have heval := kerr_omega_eval h0 hre him
  exact ⟨_, _, heval,
    kerr_omega_neg_m_negates_re_only env1 initState 0 2 0 (by decide) heval⟩

/-- C4: on success, `kerr_tau` returns -mass*MTSUN divided by the value of
the cached imaginary-part interpolant at the effective spin (absolute spin
when m = 0), with no m-dependent sign; consequently the call at (l, -m, n)
returns the identical value and caches. -/
theorem kerr_tau_formula_and_m_symmetry (env : DataEnv) (st : QNMState)
    (mass spin : ℚ) (l m n : ℤ) {t : ℚ} {st' : QNMState}
    (hok : kerr_tau env st mass spin l m n = (.ok t, st')) :
    (∃ spline, st'.imomega_splines (l, m.natAbs, n) = some spline ∧
       t = -mass * MTSUN / spline (if m = 0 then |spin| else spin)) ∧
    kerr_tau env st mass spin l (-m) n = (.ok t, st') := by
  unfold kerr_tau _checkspin at hok
  by_cases hs : |spin| > MAX_SPIN
  · rw [if_pos hs] at hok
    exact absurd (congrArg Prod.fst hok) (fun hcon => Except.noConfusion hcon)
  · rw [if_neg hs] at hok
    cases him : _getspline env "omega" "im" l m n st.imomega_splines with
    | error e =>
      rw [him] at hok
      exact absurd (congrArg Prod.fst hok) (fun hcon => Except.noConfusion hcon)
    | ok q =>
      obtain ⟨i, ic⟩ := q
      rw [him] at hok
      have ht : -mass * MTSUN / i (if m = 0 then |spin| else spin) = t :=
        Except.ok.inj (congrArg Prod.fst hok)
      have hst : ({ st with imomega_splines := ic } : QNMState) = st' :=
        congrArg Prod.snd hok
      constructor
      · refine ⟨i, ?_, ht.symm⟩
        rw [← hst]
        exact (getspline_ok_cache him).1
      · have heval := kerr_tau_eval mass hs (getspline_neg_ok him)
        rw [heval, ← hst, ← ht]
        by_cases hm : m = 0
        · subst hm
          simp
        · have hm2 : ¬ (-m = 0) := fun hc => hm (neg_eq_zero.mp hc)
          rw [if_neg hm2, if_neg hm]

/-- C4 witness: at mass 1, spin 0, mode (2, 2, 0) in `env1`, `kerr_tau`
succeeds, its value is given by the cached imaginary-part interpolant, and
the call at m = -2 returns the identical result. -/
theorem kerr_tau_formula_and_m_symmetry_witness :
    ∃ t st', kerr_tau env1 initState 1 0 2 2 0 = (.ok t, st') ∧
      (∃ spline, QNMState.imomega_splines st' (2, (2 : ℤ).natAbs, 0) = some spline ∧
         t = -1 * MTSUN / spline (if (2 : ℤ) = 0 then |(0 : ℚ)| else 0)) ∧
      kerr_tau env1 initState 1 0 2 (-2) 0 = (.ok t, st') := by
  have h0 : ¬ |(0 : ℚ)| > MAX_SPIN := by norm_num [MAX_SPIN]
  have him := getspline_cold env1 "omega" "im" 2 2 0 initState.imomega_splines
    rfl (by decide) (by decide) (Or.inr rfl)
  have heval := kerr_tau_eval 1 h0 him
  exact ⟨_, _, heval, kerr_tau_formula_and_m_symmetry env1 initState 1 0 2 2 0 heval⟩

/-- C5: on success, `kerr_freq` returns sign * (cached real-part interpolant
at the effective spin) / (2*pi*mass*MTSUN), with sign -1 exactly for m < 0,
absolute spin exactly for m = 0, and MTSUN = 4.925491025543576e-06; only the
real-part cache is consulted and the spin passed the bound check. -/
theorem kerr_freq_formula (env : DataEnv) (st : QNMState) (mass spin : ℚ)
    (l m n : ℤ) {f : ℚ} {st' : QNMState}
    (hok : kerr_freq env st mass spin l m n = (.ok f, st')) :
    |spin| ≤ MAX_SPIN ∧
    MTSUN = 4925491025543576 / 10 ^ 21 ∧
    ∃ spline, st'.reomega_splines (l, m.natAbs, n) = some spline ∧
      f = (if m < 0 then (-1 : ℚ) else 1) * spline (if m = 0 then |spin| else spin)
            / (2 * numpy_pi * mass * MTSUN) := by
  unfold kerr_freq _checkspin at hok
  by_cases hs : |spin| > MAX_SPIN
  · rw [if_pos hs] at hok
    exact absurd (congrArg Prod.fst hok) (fun hcon => Except.noConfusion hcon)
  · rw [if_neg hs] at hok
    cases hre : _getspline env "omega" "re" l m n st.reomega_splines with
    | error e =>
      rw [hre] at hok
      exact absurd (congrArg Prod.fst hok) (fun hcon => Except.noConfusion hcon)
    | ok p =>
      obtain ⟨r, rc⟩ := p
      rw [hre] at hok
      have hf2 : (if m < 0 then (-1 : ℚ) else 1) * r (if m = 0 then |spin| else spin)
          / (2 * numpy_pi * mass * MTSUN) = f :=
        Except.ok.inj (congrArg Prod.fst hok)
      have hst : ({ st with reomega_splines := rc } : QNMState) = st' :=
        congrArg Prod.snd hok
      refine ⟨not_lt.mp hs, rfl, r, ?_, hf2.symm⟩
      rw [← hst]
      exact (getspline_ok_cache hre).1

/-- C5 witness: at mass 1, spin 0, mode (2, 2, 0) in `env1`, `kerr_freq`
succeeds and its value is the stated formula over the cached real-part
interpolant. -/
theorem kerr_freq_formula_witness :
    ∃ f st', kerr_freq env1 initState 1 0 2 2 0 = (.ok f, st') ∧
      |(0 : ℚ)| ≤ MAX_SPIN ∧
      MTSUN = 4925491025543576 / 10 ^ 21 ∧
      ∃ spline, QNMState.reomega_splines st' (2, (2 : ℤ).natAbs, 0) = some spline ∧
        f = (if (2 : ℤ) < 0 then (-1 : ℚ) else 1)
              * spline (if (2 : ℤ) = 0 then |(0 : ℚ)| else 0)
              / (2 * numpy_pi * 1 * MTSUN) := by
  have h0 : ¬ |(0 : ℚ)| > MAX_SPIN := by norm_num [MAX_SPIN]
  have hre := getspline_cold env1 "omega" "re" 2 2 0 initState.reomega_splines
    rfl (by decide) (by decide) (Or.inl rfl)
  have heval := kerr_freq_eval 1 h0 hre
  exact ⟨_, _, heval, kerr_freq_formula env1 initState 1 0 2 2 0 heval⟩

/-- C8: when `kerr_omega` and `kerr_freq` both succeed from the same caches,
the frequency is the real part of omega divided by 2*pi*mass*MTSUN: both
apply the same spin check, the same m = 0 absolute-spin rule and the same
m < 0 sign to the same real-part interpolant. -/
theorem kerr_freq_eq_re_omega_scaled (env : DataEnv) (st : QNMState)
    (mass spin : ℚ) (l m n : ℤ) {z : ℚ × ℚ} {stz : QNMState} {f : ℚ}
    {stf : QNMState}
    (hmass : mass ≠ 0)
    (homega : kerr_omega env st spin l m n = (.ok z, stz))
    (hfreq : kerr_freq env st mass spin l m n = (.ok f, stf)) :
    f = z.1 / (2 * numpy_pi * mass * MTSUN) := by
  unfold kerr_omega _checkspin at homega
  unfold kerr_freq _checkspin at hfreq
  by_cases hs : |spin| > MAX_SPIN
  · rw [if_pos hs] at homega
    exact absurd (congrArg Prod.fst homega) (fun hcon => Except.noConfusion hcon)
  · rw [if_neg hs] at homega hfreq
    cases hre : _getspline env "omega" "re" l m n st.reomega_splines with
    | error e =>
      rw [hre] at homega
      exact absurd (congrArg Prod.fst homega) (fun hcon => Except.noConfusion hcon)
    | ok p =>
      obtain ⟨r, rc⟩ := p
      rw [hre] at homega hfreq
      cases him : _getspline env "omega" "im" l m n st.imomega_splines with
      | error e =>
        rw [him] at homega
        exact absurd (congrArg Prod.fst homega) (fun hcon => Except.noConfusion hcon)
      | ok q =>
        obtain ⟨i, ic⟩ := q
        rw [him] at homega
        have hz : ((if m < 0 then (-1 : ℚ) else 1) * r (if m = 0 then |spin| else spin),
                   i (if m = 0 then |spin| else spin)) = z :=
          Except.ok.inj (congrArg Prod.fst homega)
        have hf2 : (if m < 0 then (-1 : ℚ) else 1) * r (if m = 0 then |spin| else spin)
            / (2 * numpy_pi * mass * MTSUN) = f :=
          Except.ok.inj (congrArg Prod.fst hfreq)
        rw [← hf2, ← hz]

/-- C8 witness: at mass 1, spin 0, mode (2, 2, 0) in `env1` both calls
succeed and the frequency equals Re(omega) / (2*pi*1*MTSUN). -/
theorem kerr_freq_eq_re_omega_scaled_witness :
    ∃ z stz f stf,
      kerr_omega env1 initState 0 2 2 0 = (.ok z, stz) ∧
      kerr_freq env1 initState 1 0 2 2 0 = (.ok f, stf) ∧
      f = z.1 / (2 * numpy_pi * 1 * MTSUN) := by
  have h0 : ¬ |(0 : ℚ)| > MAX_SPIN := by norm_num [MAX_SPIN]
  have hre := getspline_cold env1 "omega" "re" 2 2 0 initState.reomega_splines
    rfl (by decide) (by decide) (Or.inl rfl)
  have him := getspline_cold env1 "omega" "im" 2 2 0 initState.imomega_splines
    rfl (by decide) (by decide) (Or.inr rfl)
  have homega := kerr_omega_eval h0 hre him
  have hfreq := kerr_freq_eval 1 h0 hre
  exact ⟨_, _, _, _, homega, hfreq,
    kerr_freq_eq_re_omega_scaled env1 initState 1 0 2 2 0 (by norm_num) homega hfreq⟩

/-- C7: the spline caches start empty; a successful `_getspline` stores the
returned spline at key (l, abs m, n), preserves every existing entry, and a
repeated call with the same (l, m, n) — under ANY data environment, so
without invoking `_create_spline` — returns the identical spline and leaves
the cache unchanged. -/
theorem spline_cache_lifecycle :
    (∀ k, _reomega_splines k = none) ∧
    (∀ k, _imomega_splines k = none) ∧
    (∀ (env : DataEnv) (name reim : String) (l m n : ℤ) (cache : SplineCache)
       (s : ℚ → ℚ) (c' : SplineCache),
       _getspline env name reim l m n cache = .ok (s, c') →
         c' (l, m.natAbs, n) = some s ∧
         (∀ k v, cache k = some v → c' k = some v) ∧
         (∀ env' : DataEnv, _getspline env' name reim l m n c' = .ok (s, c'))) :=
  ⟨fun _ => rfl, fun _ => rfl,
   fun _ _ _ _ _ _ _ _ _ h => getspline_ok_cache h⟩

/-- C7 witness: the real-part cache has no entry for (2, 2, 0); after a cold
`_getspline` the entry exists, old entries persist, and a second call — even
under the empty data environment — returns the cached spline unchanged. -/
theorem spline_cache_lifecycle_witness :
    _reomega_splines (2, (2 : ℤ).natAbs, 0) = none ∧
    ∃ s c', _getspline env1 "omega" "re" 2 2 0 _reomega_splines = .ok (s, c') ∧
      (c' (2, (2 : ℤ).natAbs, 0) = some s ∧
       (∀ k v, _reomega_splines k = some v → c' k = some v) ∧
       (∀ env' : DataEnv, _getspline env' "omega" "re" 2 2 0 c' = .ok (s, c'))) := by
  have h := getspline_cold env1 "omega" "re" 2 2 0 _reomega_splines rfl
    (by decide) (by decide) (Or.inl rfl)
  exact ⟨spline_cache_lifecycle.1 _, _, _, h,
    spline_cache_lifecycle.2.2 env1 "omega" "re" 2 2 0 _reomega_splines _ _ h⟩

/-- C2 counterexample: two of the three failure cases do not produce the
triple-identifying error the claim asserts.  An invalid component selector
("xx") yields the bare ValueError about reim, and a missing subgroup (2,3,0)
surfaces as the data layer's KeyError carrying only the group string; neither
is the `unsupported lmn` ValueError for any triple. -/
theorem create_spline_error_triple_counterexample :
    _create_spline env1 "omega" "xx" 2 2 0 = .error .valueErrorReim ∧
    KerrError.valueErrorReim ≠ .invalidMode 2 2 0 ∧
    _create_spline env1 "omega" "re" 2 3 0 = .error (.keyError "230") ∧
    KerrError.keyError "230" ≠ .invalidMode 2 3 0 := by
  refine ⟨?_, by decide, ?_, by decide⟩
  · unfold _create_spline
    rw [if_neg (by decide : ¬ (env1.hasFile 2 = false)),
        if_neg (by decide : ¬ (env1.hasGroup 2 (lmnKey 2 2 0) = false)),
        if_neg (by decide : ¬ ("xx" = "re")), if_neg (by decide : ¬ ("xx" = "im"))]
  · unfold _create_spline
    rw [if_neg (by decide : ¬ (env1.hasFile 2 = false)),
        if_pos (by decide : env1.hasGroup 2 (lmnKey 2 3 0) = false)]
    rfl

/-- C2 (amended): `_create_spline` raises the triple-identifying
`unsupported lmn` ValueError exactly when no data resource exists for l; a
missing (l, abs m, n) subgroup raises the data layer's KeyError (carrying
only the group key string), an invalid component selector raises a
ValueError that does not name the triple, and otherwise it succeeds; in
particular `kerr_omega(0.1, 99, 99, 0)` raises the triple-identifying error
whenever no resource exists for l = 99. -/
theorem create_spline_failure_cases (env : DataEnv) (name reim : String)
    (l m n : ℤ) :
    (env.hasFile l = false →
       _create_spline env name reim l m n = .error (.invalidMode l m n)) ∧
    (env.hasFile l = true → env.hasGroup l (lmnKey l m n) = false →
       _create_spline env name reim l m n = .error (.keyError (lmnKey l m n))) ∧
    (env.hasFile l = true → env.hasGroup l (lmnKey l m n) = true →
       reim ≠ "re" → reim ≠ "im" →
       _create_spline env name reim l m n = .error .valueErrorReim) ∧
    (env.hasFile l = true → env.hasGroup l (lmnKey l m n) = true →
       (reim = "re" ∨ reim = "im") →
       ∃ s, _create_spline env name reim l m n = .ok s) ∧
    (env.hasFile 99 = false →
       (kerr_omega env initState (1/10) 99 99 0).1 = .error (.invalidMode 99 99 0)) := by
  refine ⟨?_, ?_, ?_, ?_, ?_⟩
  · intro hf
    unfold _create_spline
    rw [if_pos hf]
  · intro hf hg
    unfold _create_spline
    rw [if_neg (by simp [hf]), if_pos hg]
  · intro hf hg hre him
    unfold _create_spline
    rw [if_neg (by simp [hf]), if_neg (by simp [hg]), if_neg hre, if_neg him]
  · intro hf hg hr
    rcases hr with rfl | rfl
    · exact ⟨env.splineVal name "re" l m.natAbs n, by simp [_create_spline, hf, hg]⟩
    · exact ⟨env.splineVal name "im" l m.natAbs n, by simp [_create_spline, hf, hg]⟩
  · intro h99
    have hs : ¬ |(1/10 : ℚ)| > MAX_SPIN := by
      rw [abs_of_nonneg (by norm_num : (0 : ℚ) ≤ 1/10)]
      norm_num [MAX_SPIN]
    have hcs : _create_spline env "omega" "re" 99 99 0 = .error (.invalidMode 99 99 0) := by
      unfold _create_spline
      rw [if_pos h99]
    have hgs : _getspline env "omega" "re" 99 99 0 initState.reomega_splines =
        .error (.invalidMode 99 99 0) := by
      unfold _getspline
      rw [show initState.reomega_splines (99, (99 : ℤ).natAbs, 0) = none from rfl, hcs]
    unfold kerr_omega _checkspin
    rw [if_neg hs, hgs]

/-- C2 witness: each branch of the failure characterization, exercised at a
concrete input, plus the success case and the l = 99 probe. -/
theorem create_spline_failure_cases_witness :
    _create_spline envEmpty "omega" "re" 99 99 0 = .error (.invalidMode 99 99 0) ∧
    _create_spline env1 "omega" "re" 2 3 0 = .error (.keyError (lmnKey 2 3 0)) ∧
    _create_spline env1 "omega" "xx" 2 2 0 = .error .valueErrorReim ∧
    (∃ s, _create_spline env1 "omega" "re" 2 2 0 = .ok s) ∧
    (kerr_omega envEmpty initState (1/10) 99 99 0).1 = .error (.invalidMode 99 99 0) :=
  ⟨(create_spline_failure_cases envEmpty "omega" "re" 99 99 0).1 rfl,
   (create_spline_failure_cases env1 "omega" "re" 2 3 0).2.1 (by decide) (by decide),
   (create_spline_failure_cases env1 "omega" "xx" 2 2 0).2.2.1 (by decide) (by decide)
     (by decide) (by decide),
   (create_spline_failure_cases env1 "omega" "re" 2 2 0).2.2.2.1 (by decide) (by decide)
     (Or.inl rfl),
   (create_spline_failure_cases envEmpty "omega" "re" 99 99 0).2.2.2.2 rfl⟩
